import Mathlib

/-!
Verification development for the ANISE ephemeris engine core.

The Rust sources embedded here are:
* `src/context/query_ephem.rs` — tree-path resolution (`try_ephemeris_path`),
  record accessors (`try_ephemeris_data`, `try_orientation_data`) and the
  frame-to-frame translation entry point (`translate_from_to`);
* `src/naif/kpl/tpc.rs` — the KPL/TPC text-kernel ingestion item
  (`Parameter`, `TPCItem`) and its tests (which document the merge step);
* `src/common_generated.rs` — the flatbuffers `InterpolationKind` tag;
* `src/constants.rs` — celestial body hashes.

Machine scalars are embedded as follows: `u32` hashes and `usize` indices
as `Nat` (no arithmetic is performed on them, only equality and lookup, so
no wraparound is reachable), `i32` body identifiers as `Int` with the
explicit `i32` range check of Rust's `str::parse::<i32>`, and `f64`
payload numbers as `ℚ` (the embedded code only moves these values around
or combines them linearly; no rounding-sensitive computation is modelled).
Fallible Rust functions returning `Result<T, AniseError>` become
`Except AniseError T`; a reachable Rust panic is modelled as `Option.none`.
-/

/-- Position or velocity vector, the embedding of `[f64; 3]`. -/
abbrev Vec3 := ℚ × ℚ × ℚ

/-- A (position, velocity) pair as returned by the translation queries. -/
abbrev State := Vec3 × Vec3

def v3zero : Vec3 := (0, 0, 0)

def v3add (a b : Vec3) : Vec3 := (a.1 + b.1, a.2.1 + b.2.1, a.2.2 + b.2.2)

def v3sub (a b : Vec3) : Vec3 := (a.1 - b.1, a.2.1 - b.2.1, a.2.2 - b.2.2)

def v3neg (a : Vec3) : Vec3 := (-a.1, -a.2.1, -a.2.2)

def stZero : State := (v3zero, v3zero)

def stAdd (a b : State) : State := (v3add a.1 b.1, v3add a.2 b.2)

def stSub (a b : State) : State := (v3sub a.1 b.1, v3sub a.2 b.2)

def stNeg (a : State) : State := (v3neg a.1, v3neg a.2)

/-- Modelled from the spec: `Epoch` is "an opaque, totally-ordered time
value (external type)" provided by the `hifitime` collaborator, absent from
the sources; the embedded code only passes epochs through unchanged. -/
abbrev Epoch := ℚ

/-- The integrity error kinds referenced by `query_ephem.rs`
(`IntegrityErrorKind::LookupTable`). -/
inductive IntegrityErrorKind
  | LookupTable
deriving DecidableEq, Repr

/-- The `AniseError` variants referenced by the embedded sources:
`IntegrityError` and `MaxTreeDepth` from `query_ephem.rs`,
`ParameterNotSpecified` from `tpc.rs`, and the lookup-miss error of the
LUT (`index_for_hash(hash) -> index | NotFound` per the spec, the LUT
implementation being absent from the sources). -/
inductive AniseError
  | IntegrityError (kind : IntegrityErrorKind)
  | ItemNotFound
  | MaxTreeDepth
  | ParameterNotSpecified
deriving DecidableEq, Repr

deriving instance DecidableEq for Except

/-- Modelled from the spec: `constants::celestial_objects::SOLAR_SYSTEM_BARYCENTER`
is imported by `query_ephem.rs` but its defining module is not among the
provided sources; the spec fixes "Sentinel root hash = 0 reserved for the
top of the ephemeris tree" ("solar-system barycenter" sentinel). -/
def SOLAR_SYSTEM_BARYCENTER : Nat := 0

/-- **Limitation:** no translation or rotation may have more than 8 nodes. -/
def MAX_TREE_DEPTH : Nat := 8

/-- Modelled from the spec: `Frame` (defined in `frame.rs`, absent from the
sources) is "a value pair (ephemeris-center hash, orientation hash); two
frames are equal iff both hashes match". -/
structure Frame where
  ephemeris_hash : Nat
  orientation_hash : Nat
deriving DecidableEq, Repr

/-- An ephemeris record. Of the record fields only `parent_ephemeris_hash`
is read by the embedded code. The `evaluate` field is modelled from the
spec: it stands for `evaluate(record, epoch) -> (position, velocity) |
OutOfCoverage` of the State Interpolation Evaluator applied to this
record's segment/coefficient payload, whose concrete code is not among the
provided sources (the spec itself leaves the per-kind formulas open). -/
structure Ephemeris where
  parent_ephemeris_hash : Nat
  evaluate : Epoch → Except AniseError State

/-- Modelled from the spec: the LUT is "an ordered sequence of (identifier
hash, catalog index) pairs"; its implementation (`index_for_hash`) is not
among the provided sources. -/
structure LookupTable where
  entries : List (Nat × Nat)

/-- Modelled from the spec: `index_for_hash(hash) -> index | NotFound`,
lookup by exact hash match. (The spec prescribes binary search over a
sorted key sequence; for a table with unique hashes the first-match scan
embedded here is observationally the same function.) -/
def LookupTable.index_for_hash (lut : LookupTable) (hash : Nat) : Except AniseError Nat :=
  match lut.entries.find? (fun e => decide (e.1 = hash)) with
  | some e => .ok e.2
  | none => .error .ItemNotFound

/-- The context, `AniseContext` of `asn1/context.rs` (absent from the
sources); the fields below are the ones the embedded code reads:
`ephemeris_lut`, `ephemeris_data`, `orientation_data`
(`query_ephem.rs`). -/
structure AniseContext where
  ephemeris_lut : LookupTable
  orientation_lut : LookupTable
  ephemeris_data : List Ephemeris
  orientation_data : List Ephemeris

/-- Try to return the ephemeris for the provided index, or returns an error. -/
def AniseContext.try_ephemeris_data (ctx : AniseContext) (idx : Nat) :
    Except AniseError Ephemeris :=
  match ctx.ephemeris_data.get? idx with
  | some e => .ok e
  | none => .error (.IntegrityError .LookupTable)

/-- Try to return the orientation for the provided index, or returns an error. -/
def AniseContext.try_orientation_data (ctx : AniseContext) (idx : Nat) :
    Except AniseError Ephemeris :=
  match ctx.orientation_data.get? idx with
  | some e => .ok e
  | none => .error (.IntegrityError .LookupTable)

/-- One parent-resolution hop of the rootward walk: look the hash up in the
ephemeris LUT, read that record's `parent_ephemeris_hash`. This is the loop
body of `try_ephemeris_path` abstracted from the path bookkeeping; it is
used to state what the walk computes. -/
def parentOf (ctx : AniseContext) (hash : Nat) : Except AniseError Nat := do
  let idx ← ctx.ephemeris_lut.index_for_hash hash
  let e ← ctx.try_ephemeris_data idx
  pure e.parent_ephemeris_hash

/-- The `n`-fold iterated parent of a hash: `chainHash ctx h n` is the
hash reached after `n` parent-resolution hops starting from `h`. -/
def chainHash (ctx : AniseContext) (hash : Nat) : Nat → Except AniseError Nat
  | 0 => .ok hash
  | n + 1 => (chainHash ctx hash n).bind (parentOf ctx)

/-- The `for _ in 0..MAX_TREE_DEPTH` loop of `try_ephemeris_path`, with the
remaining iteration count as fuel: falling out of the loop yields
`Err(MaxTreeDepth)`. The loop state is the path array (fixed length
`MAX_TREE_DEPTH`, slots `Option`), the filled length, and
`prev_ephem_hash`. -/
def ephemPathLoop (ctx : AniseContext) :
    Nat → List (Option Nat) → Nat → Nat → Except AniseError (Nat × List (Option Nat))
  | 0, _, _, _ => .error .MaxTreeDepth
  | fuel + 1, of_path, of_path_len, prev_ephem_hash => do
    let idx ← ctx.ephemeris_lut.index_for_hash prev_ephem_hash
    let e ← ctx.try_ephemeris_data idx
    let parent_hash := e.parent_ephemeris_hash
    let of_path1 := of_path.set of_path_len (some parent_hash)
    let of_path_len1 := of_path_len + 1
    if parent_hash = SOLAR_SYSTEM_BARYCENTER then
      pure (of_path_len1, of_path1)
    else
      ephemPathLoop ctx fuel of_path1 of_path_len1 parent_hash

/-- Try to construct the path from the source frame all the way to the
solar system barycenter. -/
def AniseContext.try_ephemeris_path (ctx : AniseContext) (source : Frame) :
    Except AniseError (Nat × List (Option Nat)) :=
  ephemPathLoop ctx MAX_TREE_DEPTH (List.replicate MAX_TREE_DEPTH none) 0
    source.ephemeris_hash

/-- Longest common prefix of two lists (used root-end-first on ancestor
chains). -/
def lcpList : List Nat → List Nat → List Nat
  | a :: as_, b :: bs => if a = b then a :: lcpList as_ bs else []
  | _, _ => []

/-- Modelled from the spec: `common_ancestor` — "scan from the root end of
both chains inward; the last position at which both chains agree is the
common ancestor". Chains are given source-first, so they are reversed to be
root-first before taking the longest common prefix. -/
def commonAncestor (chain1 chain2 : List Nat) : Option Nat :=
  (lcpList chain1.reverse chain2.reverse).getLast?

/-- Modelled from the spec: evaluate one edge's child record at the epoch —
LUT lookup of the child hash, record fetch, then the record's
interpolation evaluation (§4.4). -/
def evalNode (ctx : AniseContext) (epoch : Epoch) (hash : Nat) :
    Except AniseError State := do
  let idx ← ctx.ephemeris_lut.index_for_hash hash
  let e ← ctx.try_ephemeris_data idx
  e.evaluate epoch

/-- Modelled from the spec: accumulate the per-edge states of one chain
"by vector addition down each chain toward the common node" (§4.5). -/
def accumulate (ctx : AniseContext) (epoch : Epoch) :
    List Nat → Except AniseError State
  | [] => pure stZero
  | h :: rest => do
    let s ← evalNode ctx epoch h
    let acc ← accumulate ctx epoch rest
    pure (stAdd s acc)

/-- Modelled from the spec: the Translation Composer (§4.3 + §4.5) on two
source-first node chains — find the common ancestor, drop each chain at the
common node to obtain the hop children, accumulate each side, "then take
the difference of the two accumulated chain vectors (chain of `F1` minus
chain of `F2`)". -/
def composeChains (ctx : AniseContext) (epoch : Epoch) (chain1 chain2 : List Nat) :
    Except AniseError State :=
  match commonAncestor chain1 chain2 with
  | none => .error (.IntegrityError .LookupTable)
  | some m => do
    let s1 ← accumulate ctx epoch (chain1.takeWhile (fun h => decide (h ≠ m)))
    let s2 ← accumulate ctx epoch (chain2.takeWhile (fun h => decide (h ≠ m)))
    pure (stSub s1 s2)

/-- Modelled from the spec: the composer applied to the two
`try_ephemeris_path` results — each source-first node chain is the query
frame's hash followed by the filled parent slots of its path. This is the
part of `translate_from_to` that is `todo!()` in the source. -/
def composeFromPaths (ctx : AniseContext) (epoch : Epoch)
    (hash1 : Nat) (len1 : Nat) (p1 : List (Option Nat))
    (hash2 : Nat) (len2 : Nat) (p2 : List (Option Nat)) :
    Except AniseError State :=
  composeChains ctx epoch (hash1 :: (p1.take len1).filterMap id)
    (hash2 :: (p2.take len2).filterMap id)

/-- Returns the position vector and velocity vector needed to translate the
`from_frame` to the `to_frame`. The identity check and the two path
computations follow the source; the remainder of the source body is
`todo!()` and is modelled from the spec via `composeFromPaths`. -/
def AniseContext.translate_from_to (ctx : AniseContext)
    (from_frame to_frame : Frame) (epoch : Epoch) : Except AniseError State :=
  if from_frame = to_frame then
    pure (v3zero, v3zero)
  else do
    let (of_path_len, of_path) ← ctx.try_ephemeris_path from_frame
    let (wrt_path_len, wrt_path) ← ctx.try_ephemeris_path to_frame
    composeFromPaths ctx epoch from_frame.ephemeris_hash of_path_len of_path
      to_frame.ephemeris_hash wrt_path_len wrt_path

/-- `resolve_state` is the spec's name for the frame-to-frame state query
realized by `translate_from_to`. -/
def resolve_state (ctx : AniseContext) (frame_a frame_b : Frame) (epoch : Epoch) :
    Except AniseError State :=
  ctx.translate_from_to frame_a frame_b epoch

/-- Rust `str::starts_with` on the character lists of the strings (all
keywords involved are ASCII, so character positions coincide with the byte
positions Rust slices by). -/
def rsStartsWith (s p : String) : Bool := p.data.isPrefixOf s.data

/-- Rust byte-slice `s[n..]` (ASCII). -/
def sliceFrom (s : String) (n : Nat) : String := ⟨s.data.drop n⟩

/-- Rust `str::split_once(c)`: `some (before, after)` at the first
occurrence of `c`, `none` if `c` does not occur. -/
def splitOnceChars (c : Char) : List Char → Option (List Char × List Char)
  | [] => none
  | x :: xs =>
    if x = c then some ([], xs)
    else (splitOnceChars c xs).map (fun p => (x :: p.1, p.2))

def rsSplitOnce (s : String) (c : Char) : Option (String × String) :=
  (splitOnceChars c s.data).map (fun p => (⟨p.1⟩, ⟨p.2⟩))

/-- Rust `str::split(c).collect::<Vec<_>>()` on character lists: always a
non-empty list of chunks; `"a_b"` ↦ `["a", "b"]`, `""` ↦ `[""]`. -/
def splitChars (c : Char) : List Char → List (List Char)
  | [] => [[]]
  | x :: xs =>
    let r := splitChars c xs
    if x = c then [] :: r
    else
      match r with
      | [] => [[x]]
      | y :: ys => (x :: y) :: ys

def rsSplit (s : String) (c : Char) : List String :=
  (splitChars c s.data).map (fun l => ⟨l⟩)

/-- Rust `str::parse::<i32>()` as an `Option`: optional single `+`/`-`
sign, then one or more decimal digits, value within the `i32` range;
`none` on any other input (which Rust reports as a `ParseIntError`). -/
def rustParseI32 (s : String) : Option Int :=
  let p :=
    match s.data with
    | '+' :: rest => ((1 : Int), rest)
    | '-' :: rest => ((-1 : Int), rest)
    | other => ((1 : Int), other)
  let sign := p.1
  let digits := p.2
  if digits = [] then none
  else if digits.all (fun c => c.isDigit) then
    let n : Nat := digits.foldl (fun acc c => 10 * acc + (c.toNat - 48)) 0
    let v : Int := sign * n
    if -(2 ^ 31) ≤ v ∧ v < 2 ^ 31 then some v else none
  else none

/-- The KPL/TPC parameter vocabulary (`tpc.rs`). -/
inductive Parameter
  | NutPrecRa
  | NutPrecDec
  | NutPrecPm
  | NutPrecAngles
  | LongAxis
  | PoleRa
  | PoleDec
  | Radii
  | PrimeMeridian
  | GeoMagNorthPoleCenterDipoleLatitude
  | GeoMagNorthPoleCenterDipoleLongitude
  | GravitationalParameter
deriving DecidableEq, Repr

/-- `impl FromStr for Parameter` (`tpc.rs`): the Rust `match` on the
keyword suffix, unrecognized suffixes yield `Err(ParameterNotSpecified)`. -/
def Parameter.from_str (s : String) : Except AniseError Parameter :=
  if s = "NUT_PREC_RA" then .ok .NutPrecRa
  else if s = "NUT_PREC_DEC" then .ok .NutPrecDec
  else if s = "NUT_PREC_PM" then .ok .NutPrecPm
  else if s = "LONG_AXIS" then .ok .LongAxis
  else if s = "POLE_DEC" then .ok .PoleDec
  else if s = "POLE_RA" then .ok .PoleRa
  else if s = "RADII" then .ok .Radii
  else if s = "PM" then .ok .PrimeMeridian
  else if s = "NUT_PREC_ANGLES" then .ok .NutPrecAngles
  else if s = "N_GEOMAG_CTR_DIPOLE_LAT" then .ok .GeoMagNorthPoleCenterDipoleLatitude
  else if s = "N_GEOMAG_CTR_DIPOLE_LON" then .ok .GeoMagNorthPoleCenterDipoleLongitude
  else if s = "GM" then .ok .GravitationalParameter
  else .error .ParameterNotSpecified

/-- A `KEYWORD = value` assignment record. The `value` field is modelled
from the spec: values are "scalars or ordered lists of numbers"; the text
parser producing them (`parser.rs`, `Assignment::value_to_vec_f64`) is not
among the provided sources, so the assignment carries its numeric list
directly. -/
structure Assignment where
  keyword : String
  value : List ℚ

/-- `Assignment::value_to_vec_f64` on the modelled assignment: the numeric
list it carries. -/
def Assignment.value_to_vec_f64 (a : Assignment) : List ℚ := a.value

/-- The embedding of `HashMap<Parameter, Vec<f64>>`: an association list
with `HashMap::insert` semantics (replace the value at an existing key,
otherwise add the new binding; a `HashMap` carries no observable order). -/
def mapInsert : List (Parameter × List ℚ) → Parameter → List ℚ →
    List (Parameter × List ℚ)
  | [], k, v => [(k, v)]
  | e :: rest, k, v => if e.1 = k then (k, v) :: rest else e :: mapInsert rest k v

/-- `HashMap` lookup on the association-list embedding. -/
def mapLookup (m : List (Parameter × List ℚ)) (k : Parameter) : Option (List ℚ) :=
  (m.find? (fun e => decide (e.1 = k))).map (fun e => e.2)

/-- `TPCItem` (`tpc.rs`): the per-body ingestion item. -/
structure TPCItem where
  body_id : Option Int
  data : List (Parameter × List ℚ)
deriving Repr

/-- `TPCItem::default()`. -/
def TPCItem.default : TPCItem := ⟨none, []⟩

/-- `TPCItem::extract_key` (`tpc.rs`). The source unwraps the integer
parse of the characters of `parts[0]` after the `"BODY"` prefix
(`parts[0][4..].parse::<i32>().unwrap()`), so a failing parse is a panic,
embedded as `none`; every non-`"BODY"` keyword yields `-1`. -/
def TPCItem.extract_key (keyword : String) : Option Int :=
  if rsStartsWith keyword "BODY" then
    let parts := rsSplit keyword '_'
    rustParseI32 (sliceFrom (parts.headD ⟨[]⟩) 4)
  else
    some (-1)

/-- `TPCItem::parse` (`tpc.rs`): on a `BODY…` keyword with an underscore,
parse the body id from the characters between `BODY` and the first
underscore; keep the current `body_id` when it is set and differs (warn
only), otherwise store the parsed id; then insert the value under the
recognized parameter, or skip the assignment with a warning when the
parameter suffix is unrecognized. -/
def TPCItem.parse (item : TPCItem) (a : Assignment) : TPCItem :=
  if rsStartsWith a.keyword "BODY" then
    match rsSplitOnce a.keyword '_' with
    | some (body_info, param) =>
      let body_id := rustParseI32 (sliceFrom body_info 4)
      let item1 :=
        if item.body_id.isSome && decide (item.body_id ≠ body_id) then item
        else { item with body_id := body_id }
      match Parameter.from_str param with
      | .ok p => { item1 with data := mapInsert item1.data p a.value_to_vec_f64 }
      | .error _ => item1
    | none => item
  else item

/-- The merge step of `test_anise_conversion` (`tpc.rs`): every binding of
`value`'s data map is inserted into `planet`'s data map
(`planet_data.data.insert(gk, gv)` for each `(gk, gv)` in `value.data`). -/
def TPCItem.mergeData (planet : TPCItem) (value : TPCItem) : TPCItem :=
  { planet with
    data := value.data.foldl (fun acc kv => mapInsert acc kv.1 kv.2) planet.data }

/-- `InterpolationKind` (`common_generated.rs`): a flatbuffers enum, a
transparent wrapper over a `u8` tag whose valid tags are `0..=4`. -/
structure InterpolationKind where
  val : Fin 256
deriving DecidableEq, Repr

def InterpolationKind.ChebyshevSeries : InterpolationKind := ⟨0⟩

def InterpolationKind.HermiteSeries : InterpolationKind := ⟨1⟩

def InterpolationKind.LagrangeSeries : InterpolationKind := ⟨2⟩

def InterpolationKind.Polynomial : InterpolationKind := ⟨3⟩

def InterpolationKind.Trigonometric : InterpolationKind := ⟨4⟩

/-- `InterpolationKind::ENUM_VALUES`. -/
def InterpolationKind.ENUM_VALUES : List InterpolationKind :=
  [.ChebyshevSeries, .HermiteSeries, .LagrangeSeries, .Polynomial, .Trigonometric]

/-- `InterpolationKind::variant_name`: `Some` of the variant's name on the
five named tags, `None` on every other byte. -/
def InterpolationKind.variant_name (k : InterpolationKind) : Option String :=
  if k = .ChebyshevSeries then some "ChebyshevSeries"
  else if k = .HermiteSeries then some "HermiteSeries"
  else if k = .LagrangeSeries then some "LagrangeSeries"
  else if k = .Polynomial then some "Polynomial"
  else if k = .Trigonometric then some "Trigonometric"
  else none

/-! ## Helper lemmas -/

theorem mapLookup_mapInsert_self (m : List (Parameter × List ℚ)) (k : Parameter)
    (v : List ℚ) : mapLookup (mapInsert m k v) k = some v := by
  induction m with
  | nil => simp [mapInsert, mapLookup]
  | cons e rest ih =>
    by_cases he : e.1 = k
    · simp [mapInsert, mapLookup, he]
    · simp only [mapInsert, mapLookup, he, if_false, ite_false, List.find?]
      simp only [mapLookup] at ih
      simpa [he] using ih

theorem stNeg_stZero : stNeg stZero = stZero := by
  simp [stNeg, stZero, v3neg, v3zero]

theorem stSub_antisymm (a b : State) : stSub b a = stNeg (stSub a b) := by
  simp [stSub, stNeg, v3sub, v3neg]

/-! ## C1 -/

/-- C1: for every context, frame and epoch, the identity query
`translate_from_to(F, F, t)` returns `Ok` with exactly zero position and
velocity. The context is universally quantified — in particular the result
holds for a context whose LUT does not even contain `F` and whose catalogs
are empty, so the short-circuit cannot have performed any LUT lookup or
record read. -/
theorem translate_from_to_identity_zero (ctx : AniseContext) (F : Frame) (t : Epoch) :
    ctx.translate_from_to F F t = .ok (v3zero, v3zero) := by
  unfold AniseContext.translate_from_to
  rw [if_pos rfl]
  rfl

/-! ## C5 -/

/-- The context over an empty buffer: empty LUTs, empty catalogs. -/
def emptyCtx : AniseContext := ⟨⟨[]⟩, ⟨[]⟩, [], []⟩

/-- C5 counterexample: on the out-of-bounds index 0 of an empty ephemeris
catalog, `try_ephemeris_data` does not panic — it surfaces the
out-of-bounds access as the returned error value
`Err(IntegrityError(LookupTable))`, contradicting the claim that a panic is
the only failure mode and that an out-of-bounds index is never surfaced as
a returned error. -/
theorem try_ephemeris_data_oob_is_error_not_panic :
    emptyCtx.try_ephemeris_data 0 = .error (.IntegrityError .LookupTable) := rfl

/-- C5 (amended): `try_ephemeris_data` never panics: for every in-bounds
index it infallibly returns `Ok` with the record at that index, and for
every out-of-bounds index it returns the error value
`Err(IntegrityError(LookupTable))`. -/
theorem try_ephemeris_data_in_bounds_ok_oob_error (ctx : AniseContext) (idx : Nat) :
    (idx < ctx.ephemeris_data.length →
      ∃ e, ctx.ephemeris_data.get? idx = some e ∧
        ctx.try_ephemeris_data idx = .ok e) ∧
    (ctx.ephemeris_data.length ≤ idx →
      ctx.try_ephemeris_data idx = .error (.IntegrityError .LookupTable)) := by
  constructor
  · intro h
    cases hg : ctx.ephemeris_data.get? idx with
    | none =>
      rw [List.get?_eq_none] at hg
      omega
    | some e =>
      refine ⟨e, rfl, ?_⟩
      unfold AniseContext.try_ephemeris_data
      rw [hg]
  · intro h
    unfold AniseContext.try_ephemeris_data
    rw [List.get?_eq_none.mpr h]

/-- A context holding exactly one ephemeris record. -/
def oneRecCtx : AniseContext :=
  ⟨⟨[(5, 0)]⟩, ⟨[]⟩, [⟨0, fun _ => .ok stZero⟩], []⟩

theorem try_ephemeris_data_in_bounds_ok_oob_error_witness :
    (∃ e, oneRecCtx.ephemeris_data.get? 0 = some e ∧
        oneRecCtx.try_ephemeris_data 0 = .ok e) ∧
    oneRecCtx.try_ephemeris_data 1 = .error (.IntegrityError .LookupTable) :=
  ⟨(try_ephemeris_data_in_bounds_ok_oob_error oneRecCtx 0).1 (by decide),
   (try_ephemeris_data_in_bounds_ok_oob_error oneRecCtx 1).2 (by decide)⟩

/-! ## C8 -/

set_option maxRecDepth 8000 in
/-- C8: the interpolation-kind tag admits exactly the five valid variants
Chebyshev (0), Hermite (1), Lagrange (2), plain polynomial (3),
trigonometric (4): `variant_name` returns `Some` exactly on the byte values
0 through 4 — which are the five `ENUM_VALUES` — and `None` on every other
byte value. -/
theorem interpolation_kind_five_variants :
    (∀ b : Fin 256, (InterpolationKind.mk b).variant_name.isSome = true ↔ b.val ≤ 4) ∧
    InterpolationKind.ENUM_VALUES =
      [⟨0⟩, ⟨1⟩, ⟨2⟩, ⟨3⟩, ⟨4⟩] ∧
    InterpolationKind.ChebyshevSeries.val = 0 ∧
    InterpolationKind.HermiteSeries.val = 1 ∧
    InterpolationKind.LagrangeSeries.val = 2 ∧
    InterpolationKind.Polynomial.val = 3 ∧
    InterpolationKind.Trigonometric.val = 4 := by
  refine ⟨?_, rfl, rfl, rfl, rfl, rfl, rfl⟩
  decide

/-! ## C6 -/

/-- C6: `TPCItem::parse` is a total function (it returns normally, never an
error), and on an assignment whose keyword has the `BODY<id>_<param>` shape
with an unrecognized `<param>` it leaves the item's parameter data map
unchanged: the assignment is skipped (with only a warning in the source)
and ingestion continues. -/
theorem parse_unrecognized_param_keeps_data (item : TPCItem) (a : Assignment)
    (body_info param : String) (e : AniseError)
    (hstart : rsStartsWith a.keyword "BODY" = true)
    (hsplit : rsSplitOnce a.keyword '_' = some (body_info, param))
    (herr : Parameter.from_str param = .error e) :
    (item.parse a).data = item.data := by
  simp only [TPCItem.parse, hstart, hsplit, herr, if_true]
  split <;> rfl

theorem parse_unrecognized_param_keeps_data_witness :
    (TPCItem.default.parse ⟨"BODY399_MAGIC", [1, 2]⟩).data = TPCItem.default.data :=
  parse_unrecognized_param_keeps_data TPCItem.default ⟨"BODY399_MAGIC", [1, 2]⟩
    "BODY399" "MAGIC" .ParameterNotSpecified (by decide) (by decide) (by decide)

/-! ## C9 -/

/-- C9: when the item's `body_id` is already `B` and a `BODY<C>_<param>`
assignment arrives with `C ≠ B` and a recognized `<param>`, `parse` keeps
`body_id = B` (the mismatch is only warned about) yet still inserts `C`'s
values into this item's data map — the assignment is merged into the
current item, not rejected or routed to body `C`. -/
theorem parse_mismatched_body_still_inserts (item : TPCItem) (a : Assignment)
    (B C : Int) (body_info param : String) (p : Parameter)
    (hB : item.body_id = some B)
    (hstart : rsStartsWith a.keyword "BODY" = true)
    (hsplit : rsSplitOnce a.keyword '_' = some (body_info, param))
    (hC : rustParseI32 (sliceFrom body_info 4) = some C)
    (hne : C ≠ B)
    (hp : Parameter.from_str param = .ok p) :
    (item.parse a).body_id = some B ∧
    mapLookup (item.parse a).data p = some a.value_to_vec_f64 := by
  have hne2 : B ≠ C := fun h => hne h.symm
  simp only [TPCItem.parse, hstart, hsplit, hC, hp, hB, if_true, Option.isSome_some,
    Bool.true_and, ne_eq, Option.some.injEq, hne2, decide_not, decide_False,
    Bool.not_false, ite_true, mapLookup_mapInsert_self, and_self, and_true]

theorem parse_mismatched_body_still_inserts_witness :
    ((⟨some 3, []⟩ : TPCItem).parse ⟨"BODY399_RADII", [6378, 6378, 6356]⟩).body_id
        = some 3 ∧
    mapLookup ((⟨some 3, []⟩ : TPCItem).parse
        ⟨"BODY399_RADII", [6378, 6378, 6356]⟩).data .Radii
      = some (Assignment.value_to_vec_f64 ⟨"BODY399_RADII", [6378, 6378, 6356]⟩) :=
  parse_mismatched_body_still_inserts ⟨some 3, []⟩
    ⟨"BODY399_RADII", [6378, 6378, 6356]⟩ 3 399 "BODY399" "RADII" .Radii rfl
    (by decide) (by decide) (by decide) (by decide) (by decide)

/-! ## C7 -/

/-- The coefficient vector of the `BODY399_POLE_RA = ( 0.0 -0.641 0.0 )`
assignment of the round-trip scenario. -/
def poleRaValue : List ℚ := [0, -641 / 1000, 0]

/-- The `BODY399_POLE_RA` assignment itself. -/
def aPoleRa399 : Assignment := ⟨"BODY399_POLE_RA", poleRaValue⟩

/-- A gravitational-parameter item for body 399, merged into the planetary
item as `test_anise_conversion` does with the `gm_de431` data. -/
def gmItem399 : TPCItem :=
  ⟨some 399, [(Parameter.GravitationalParameter, [398600435436 / 1000000])]⟩

/-- C7: ingesting `BODY399_POLE_RA = ( 0.0 -0.641 0.0 )` through
`TPCItem::parse` attaches the body id 399, and after merging (the data
union of `test_anise_conversion`) the parameter "pole right ascension"
(`PoleRa`) is mapped to exactly the three-element vector
`[0.0, -0.641, 0.0]`, verbatim and in order. -/
theorem pole_ra_ingested_and_merged_verbatim :
    (TPCItem.default.parse aPoleRa399).body_id = some 399 ∧
    mapLookup ((TPCItem.default.parse aPoleRa399).mergeData gmItem399).data .PoleRa
      = some poleRaValue ∧
    poleRaValue = [0, -641 / 1000, 0] :=
  ⟨rfl, rfl, rfl⟩

/-! ## C10 -/

theorem splitChars_ne_nil (c : Char) (l : List Char) : splitChars c l ≠ [] := by
  cases l with
  | nil => simp [splitChars]
  | cons x xs =>
    simp only [splitChars]
    split
    · simp
    · split <;> simp

theorem splitChars_headD (c : Char) (l : List Char) :
    (splitChars c l).headD [] = l.takeWhile (fun x => x != c) := by
  induction l with
  | nil => simp [splitChars]
  | cons x xs ih =>
    simp only [splitChars, List.takeWhile]
    by_cases hx : x = c
    · simp [hx]
    · have hbne : (x != c) = true := by simp [bne, hx]
      rw [if_neg hx, hbne]
      rcases hsp : splitChars c xs with _ | ⟨y, ys⟩
      · exact absurd hsp (splitChars_ne_nil c xs)
      · simp only [List.headD]
        rw [hsp] at ih
        simp only [List.headD] at ih
        rw [ih]

theorem rsSplit_headD (s : String) (c : Char) :
    (rsSplit s c).headD ⟨[]⟩ = ⟨s.data.takeWhile (fun x => x != c)⟩ := by
  unfold rsSplit
  rcases hsp : splitChars c s.data with _ | ⟨y, ys⟩
  · exact absurd hsp (splitChars_ne_nil c s.data)
  · have := splitChars_headD c s.data
    rw [hsp] at this
    simp only [List.headD] at this
    simp [this]

/-- C10: `TPCItem::extract_key` returns `-1` for every keyword that does
not start with `"BODY"`; for a keyword that does, it parses the characters
between `"BODY"` and the first underscore as a base-10 `i32` and returns
that id — but the parse result is unwrapped, so the function is total only
when that portion is a valid `i32`: on a keyword such as `"BODYX_RADII"`
the failure branch is reachable and is a panic (embedded as `none`), not a
returned error. -/
theorem extract_key_spec :
    (∀ k : String, rsStartsWith k "BODY" = false →
      TPCItem.extract_key k = some (-1)) ∧
    (∀ (k : String) (r : Option Int), rsStartsWith k "BODY" = true →
      rustParseI32 (sliceFrom ⟨k.data.takeWhile (fun x => x != '_')⟩ 4) = r →
      TPCItem.extract_key k = r) ∧
    TPCItem.extract_key "BODYX_RADII" = none := by
  refine ⟨?_, ?_, by decide⟩
  · intro k hk
    unfold TPCItem.extract_key
    rw [hk]
    rfl
  · intro k r hk hr
    unfold TPCItem.extract_key
    rw [hk]
    simp only [if_true]
    rw [rsSplit_headD]
    exact hr

theorem extract_key_spec_witness :
    TPCItem.extract_key "FRAME_399" = some (-1) ∧
    TPCItem.extract_key "BODY399_RADII" = some 399 :=
  ⟨extract_key_spec.1 "FRAME_399" (by decide),
   extract_key_spec.2.1 "BODY399_RADII" (some 399) (by decide) (by decide)⟩

/-! ## Path-walk lemmas -/

theorem ephemPathLoop_succ (ctx : AniseContext) (fuel : Nat)
    (path : List (Option Nat)) (len h : Nat) :
    ephemPathLoop ctx (fuel + 1) path len h =
      match parentOf ctx h with
      | .error err => .error err
      | .ok p =>
        if p = SOLAR_SYSTEM_BARYCENTER then .ok (len + 1, path.set len (some p))
        else ephemPathLoop ctx fuel (path.set len (some p)) (len + 1) p := by
  cases hidx : ctx.ephemeris_lut.index_for_hash h with
  | error e =>
    simp [ephemPathLoop, parentOf, hidx, Bind.bind, Except.bind, Functor.map,
      Except.map]
  | ok idx =>
    cases hdat : ctx.try_ephemeris_data idx with
    | error e =>
      simp [ephemPathLoop, parentOf, hidx, hdat, Bind.bind, Except.bind,
        Functor.map, Except.map]
    | ok r =>
      simp [ephemPathLoop, parentOf, hidx, hdat, Bind.bind, Except.bind,
        Functor.map, Except.map, pure, Except.pure]

theorem ephemPathLoop_ok_len (ctx : AniseContext) :
    ∀ (fuel : Nat) (path : List (Option Nat)) (len h len2 : Nat)
      (path2 : List (Option Nat)),
      ephemPathLoop ctx fuel path len h = .ok (len2, path2) →
      len < len2 ∧ len2 ≤ len + fuel := by
  intro fuel
  induction fuel with
  | zero =>
    intro path len h len2 path2 heq
    simp [ephemPathLoop] at heq
  | succ f ih =>
    intro path len h len2 path2 heq
    rw [ephemPathLoop_succ] at heq
    cases hp : parentOf ctx h with
    | error e => rw [hp] at heq; simp at heq
    | ok p =>
      rw [hp] at heq
      by_cases hs : p = SOLAR_SYSTEM_BARYCENTER
      · simp only [hs, if_true, ite_true] at heq
        simp only [Except.ok.injEq, Prod.mk.injEq] at heq
        omega
      · simp only [hs, if_false, ite_false] at heq
        have := ih _ _ _ _ _ heq
        omega

theorem chainHash_succ_front (ctx : AniseContext) (h n : Nat) :
    chainHash ctx h (n + 1) = (parentOf ctx h).bind (fun v => chainHash ctx v n) := by
  induction n with
  | zero =>
    rw [chainHash, chainHash]
    cases hp : parentOf ctx h <;> simp [Except.bind, chainHash, hp]
  | succ n ih =>
    rw [chainHash, ih]
    cases hp : parentOf ctx h <;> simp [Except.bind, chainHash, hp]

theorem ephemPathLoop_no_root (ctx : AniseContext) :
    ∀ (fuel len : Nat) (path : List (Option Nat)) (h : Nat),
      (∀ k, 1 ≤ k → k ≤ fuel →
        ∃ v, chainHash ctx h k = .ok v ∧ v ≠ SOLAR_SYSTEM_BARYCENTER) →
      ephemPathLoop ctx fuel path len h = .error .MaxTreeDepth := by
  intro fuel
  induction fuel with
  | zero => intro len path h _; rfl
  | succ f ih =>
    intro len path h H
    obtain ⟨v, hv, hvne⟩ := H 1 le_rfl (by omega)
    have hpv : parentOf ctx h = .ok v := by
      rw [chainHash_succ_front] at hv
      cases hp : parentOf ctx h with
      | error e => rw [hp] at hv; simp [Except.bind] at hv
      | ok w =>
        rw [hp] at hv
        simp only [Except.bind, chainHash] at hv
        rw [hv]
    rw [ephemPathLoop_succ]
    simp only [hpv]
    rw [if_neg hvne]
    apply ih
    intro k hk1 hkf
    obtain ⟨w, hw, hwne⟩ := H (k + 1) (by omega) (by omega)
    refine ⟨w, ?_, hwne⟩
    rw [chainHash_succ_front, hpv] at hw
    simpa [Except.bind] using hw

theorem ephemPathLoop_reaches_root (ctx : AniseContext) :
    ∀ (j : Nat), 1 ≤ j →
    ∀ (fuel len : Nat) (path : List (Option Nat)) (h : Nat),
      j ≤ fuel → len + fuel ≤ path.length →
      (∀ i, 1 ≤ i → i < j →
        ∃ v, chainHash ctx h i = .ok v ∧ v ≠ SOLAR_SYSTEM_BARYCENTER) →
      chainHash ctx h j = .ok SOLAR_SYSTEM_BARYCENTER →
      ∃ path2,
        ephemPathLoop ctx fuel path len h = .ok (len + j, path2) ∧
        path2.length = path.length ∧
        (∀ i, i < len → path2[i]? = path[i]?) ∧
        (∀ i, len + j ≤ i → path2[i]? = path[i]?) ∧
        (∀ i, i < j → ∃ v, chainHash ctx h (i + 1) = .ok v ∧
          path2[len + i]? = some (some v)) := by
  intro j
  induction j with
  | zero => intro hj1; exact absurd hj1 (by omega)
  | succ j ih =>
    intro _ fuel len path h hjf hlen hmid hroot
    obtain ⟨f, rfl⟩ : ∃ f, fuel = f + 1 := ⟨fuel - 1, by omega⟩
    by_cases hj0 : j = 0
    · subst hj0
      have hpv : parentOf ctx h = .ok SOLAR_SYSTEM_BARYCENTER := by
        rw [chainHash_succ_front] at hroot
        cases hp : parentOf ctx h with
        | error e => rw [hp] at hroot; simp [Except.bind] at hroot
        | ok w =>
          rw [hp] at hroot
          simp only [Except.bind, chainHash] at hroot
          rw [hroot]
      refine ⟨path.set len (some SOLAR_SYSTEM_BARYCENTER), ?_, ?_, ?_, ?_, ?_⟩
      · rw [ephemPathLoop_succ]
        simp only [hpv, if_true, ite_true, eq_self_iff_true]
      · exact List.length_set path len _
      · intro i hi
        exact List.getElem?_set_ne (by omega)
      · intro i hi
        exact List.getElem?_set_ne (by omega)
      · intro i hi
        have hi0 : i = 0 := by omega
        subst hi0
        refine ⟨SOLAR_SYSTEM_BARYCENTER, hroot, ?_⟩
        have hlt : len < path.length := by omega
        simpa using List.getElem?_set_eq_of_lt (some SOLAR_SYSTEM_BARYCENTER) hlt
    · have hj1' : 1 ≤ j := by omega
      obtain ⟨v1, hv1, hv1ne⟩ := hmid 1 le_rfl (by omega)
      have hpv : parentOf ctx h = .ok v1 := by
        rw [chainHash_succ_front] at hv1
        cases hp : parentOf ctx h with
        | error e => rw [hp] at hv1; simp [Except.bind] at hv1
        | ok w =>
          rw [hp] at hv1
          simp only [Except.bind, chainHash] at hv1
          rw [hv1]
      have hshift : ∀ m, chainHash ctx v1 m = chainHash ctx h (m + 1) := by
        intro m
        rw [chainHash_succ_front ctx h m, hpv]
        simp [Except.bind]
      obtain ⟨path2, hloop, hlen2, hlow, hhigh, hvals⟩ :=
        ih hj1' f (len + 1) (path.set len (some v1)) v1 (by omega)
          (by rw [List.length_set]; omega)
          (fun i hi1 hij => by
            obtain ⟨w, hw, hwne⟩ := hmid (i + 1) (by omega) (by omega)
            exact ⟨w, by rw [hshift]; exact hw, hwne⟩)
          (by rw [hshift]; exact hroot)
      refine ⟨path2, ?_, ?_, ?_, ?_, ?_⟩
      · rw [ephemPathLoop_succ]
        simp only [hpv]
        rw [if_neg hv1ne]
        rw [show len + (j + 1) = len + 1 + j by omega]
        exact hloop
      · rw [hlen2, List.length_set]
      · intro i hi
        rw [hlow i (by omega)]
        exact List.getElem?_set_ne (by omega)
      · intro i hi
        rw [hhigh i (by omega)]
        exact List.getElem?_set_ne (by omega)
      · intro i hi
        cases i with
        | zero =>
          refine ⟨v1, hv1, ?_⟩
          rw [show len + 0 = len by omega]
          rw [hlow len (by omega)]
          have hlt : len < path.length := by omega
          simpa using List.getElem?_set_eq_of_lt (some v1) hlt
        | succ i2 =>
          obtain ⟨w, hw, hww⟩ := hvals i2 (by omega)
          refine ⟨w, ?_, ?_⟩
          · rw [← hshift (i2 + 1)]
            exact hw
          · rw [show len + (i2 + 1) = len + 1 + i2 by omega]
            exact hww

/-! ## C2 -/

/-- C2: `try_ephemeris_path` performs at most `MAX_TREE_DEPTH = 8`
parent-resolution steps (the walk is a structurally recursive function of
that fuel, so it terminates on every input, cyclic catalogs included):
every successfully returned ancestor chain has length between 1 and 8, and
whenever the first 8 iterated parents all resolve without reaching the
sentinel root — i.e. a 9th hop would be required, as on a cyclic catalog —
the walk returns `Err(MaxTreeDepth)`. -/
theorem try_ephemeris_path_depth_bounded (ctx : AniseContext) (F : Frame) :
    (∀ (len : Nat) (path : List (Option Nat)),
      ctx.try_ephemeris_path F = .ok (len, path) →
      1 ≤ len ∧ len ≤ MAX_TREE_DEPTH) ∧
    ((∀ k, 1 ≤ k → k ≤ MAX_TREE_DEPTH →
      ∃ v, chainHash ctx F.ephemeris_hash k = .ok v ∧ v ≠ SOLAR_SYSTEM_BARYCENTER) →
      ctx.try_ephemeris_path F = .error .MaxTreeDepth) := by
  constructor
  · intro len path heq
    have hb := ephemPathLoop_ok_len ctx MAX_TREE_DEPTH
      (List.replicate MAX_TREE_DEPTH none) 0 F.ephemeris_hash len path heq
    simp only [MAX_TREE_DEPTH] at hb ⊢
    omega
  · intro H
    exact ephemPathLoop_no_root ctx MAX_TREE_DEPTH 0
      (List.replicate MAX_TREE_DEPTH none) F.ephemeris_hash H

/-- A malformed (cyclic) catalog: the single record is its own parent, so
the rootward walk loops for ever in the data yet the query still
terminates with `MaxTreeDepth`. -/
def cyclicCtx : AniseContext :=
  ⟨⟨[(5, 0)]⟩, ⟨[]⟩, [⟨5, fun _ => .ok stZero⟩], []⟩

theorem try_ephemeris_path_depth_bounded_witness :
    cyclicCtx.try_ephemeris_path ⟨5, 1404527632⟩ = .error .MaxTreeDepth :=
  (try_ephemeris_path_depth_bounded cyclicCtx ⟨5, 1404527632⟩).2
    (fun k hk1 hk8 => ⟨5, by
      have hk8b : k ≤ 8 := hk8
      interval_cases k <;> exact ⟨by decide, by decide⟩⟩)

/-! ## C3 -/

/-- C3: whenever the rootward walk from `F` reaches the sentinel within 8
steps (the `j`-th iterated parent is the sentinel root 0 and the earlier
iterated parents all resolve to non-sentinel hashes), `try_ephemeris_path`
returns `Ok (j, path)` where slot `i` of the path holds exactly the
`(i+1)`-st iterated parent hash for `i < j` — so `path[j-1]` is the
sentinel root (solar-system barycenter) — and every slot at index `≥ j` is
still `None`. -/
theorem try_ephemeris_path_builds_parent_chain (ctx : AniseContext) (F : Frame)
    (j : Nat) (hj1 : 1 ≤ j) (hj8 : j ≤ MAX_TREE_DEPTH)
    (hmid : ∀ i, 1 ≤ i → i < j →
      ∃ v, chainHash ctx F.ephemeris_hash i = .ok v ∧ v ≠ SOLAR_SYSTEM_BARYCENTER)
    (hroot : chainHash ctx F.ephemeris_hash j = .ok SOLAR_SYSTEM_BARYCENTER) :
    ∃ path, ctx.try_ephemeris_path F = .ok (j, path) ∧
      (∀ i, i < j → ∃ v, chainHash ctx F.ephemeris_hash (i + 1) = .ok v ∧
        path[i]? = some (some v)) ∧
      path[j - 1]? = some (some SOLAR_SYSTEM_BARYCENTER) ∧
      (∀ i, j ≤ i → i < MAX_TREE_DEPTH → path[i]? = some none) := by
  obtain ⟨path2, hloop, hlen2, hlow, hhigh, hvals⟩ :=
    ephemPathLoop_reaches_root ctx j hj1 MAX_TREE_DEPTH 0
      (List.replicate MAX_TREE_DEPTH none) F.ephemeris_hash hj8
      (by simp) hmid hroot
  rw [Nat.zero_add] at hloop
  refine ⟨path2, hloop, ?_, ?_, ?_⟩
  · intro i hi
    obtain ⟨v, hv, hpv⟩ := hvals i hi
    rw [Nat.zero_add] at hpv
    exact ⟨v, hv, hpv⟩
  · obtain ⟨v, hv, hpv⟩ := hvals (j - 1) (by omega)
    rw [Nat.zero_add] at hpv
    rw [show j - 1 + 1 = j by omega] at hv
    rw [hroot] at hv
    have hveq : v = SOLAR_SYSTEM_BARYCENTER := (Except.ok.inj hv).symm
    rw [← hveq]
    exact hpv
  · intro i hij hi8
    rw [hhigh i (by omega), List.getElem?_replicate, if_pos hi8]

/-- The Earth frame with the J2000 orientation (hashes from
`constants.rs`). -/
def earthFrame : Frame := ⟨2330221028, 1404527632⟩

/-- The Luna frame with the J2000 orientation (hashes from
`constants.rs`). -/
def lunaFrame : Frame := ⟨1668777413, 1404527632⟩

/-- A sample evaluated state for the Earth record of `embCtx`. -/
def earthState : State := ((1, 2, 3), (4, 5, 6))

/-- A three-body catalog: the Earth–Moon barycenter (hash 46073813, record
0) is parented at the solar-system barycenter; Earth (hash 2330221028,
record 1) and Luna (hash 1668777413, record 2) are parented at the
Earth–Moon barycenter. -/
def embCtx : AniseContext :=
  ⟨⟨[(46073813, 0), (2330221028, 1), (1668777413, 2)]⟩, ⟨[]⟩,
   [⟨SOLAR_SYSTEM_BARYCENTER, fun _ => .ok stZero⟩,
    ⟨46073813, fun _ => .ok earthState⟩,
    ⟨46073813, fun _ => .ok stZero⟩], []⟩

theorem try_ephemeris_path_builds_parent_chain_witness :
    ∃ path, embCtx.try_ephemeris_path earthFrame = .ok (2, path) ∧
      (∀ i, i < 2 → ∃ v, chainHash embCtx earthFrame.ephemeris_hash (i + 1) = .ok v ∧
        path[i]? = some (some v)) ∧
      path[2 - 1]? = some (some SOLAR_SYSTEM_BARYCENTER) ∧
      (∀ i, 2 ≤ i → i < MAX_TREE_DEPTH → path[i]? = some none) :=
  try_ephemeris_path_builds_parent_chain embCtx earthFrame 2 (by decide) (by decide)
    (fun i hi1 hi2 => by
      have hi2b : i < 2 := hi2
      interval_cases i
      exact ⟨46073813, by decide, by decide⟩)
    (by decide)

/-! ## C4 -/

theorem lcpList_comm (l1 : List Nat) : ∀ l2 : List Nat, lcpList l1 l2 = lcpList l2 l1 := by
  induction l1 with
  | nil => intro l2; cases l2 <;> simp [lcpList]
  | cons a as ih =>
    intro l2
    cases l2 with
    | nil => simp [lcpList]
    | cons b bs =>
      by_cases hab : a = b
      · subst hab
        simp [lcpList, ih]
      · simp [lcpList, hab, Ne.symm hab]

theorem commonAncestor_comm (c1 c2 : List Nat) :
    commonAncestor c1 c2 = commonAncestor c2 c1 := by
  unfold commonAncestor
  rw [lcpList_comm]

theorem composeChains_antisymm (ctx : AniseContext) (t : Epoch) (c1 c2 : List Nat)
    (s : State) (h : composeChains ctx t c1 c2 = .ok s) :
    composeChains ctx t c2 c1 = .ok (stNeg s) := by
  unfold composeChains at h ⊢
  rw [commonAncestor_comm c2 c1]
  simp only [ne_eq, decide_not] at h ⊢
  cases hca : commonAncestor c1 c2 with
  | none =>
    simp only [hca] at h
    exact absurd h (by simp)
  | some m =>
    simp only [hca] at h
    cases ha1 : accumulate ctx t (List.takeWhile (fun x => !decide (x = m)) c1) with
    | error e =>
      rw [ha1] at h
      simp [Bind.bind, Except.bind, Functor.map, Except.map] at h
    | ok s1 =>
      cases ha2 : accumulate ctx t (List.takeWhile (fun x => !decide (x = m)) c2) with
      | error e =>
        rw [ha1, ha2] at h
        simp [Bind.bind, Except.bind, Functor.map, Except.map] at h
      | ok s2 =>
        rw [ha1, ha2] at h
        simp only [Bind.bind, Except.bind, Functor.map, Except.map, pure,
          Except.pure, Except.ok.injEq] at h
        dsimp only
        rw [ha2, ha1]
        simp only [Bind.bind, Except.bind, Functor.map, Except.map, pure,
          Except.pure, Except.ok.injEq]
        rw [← h]
        exact stSub_antisymm s1 s2

/-- C4: the frame-to-frame state resolution is antisymmetric — whenever
`resolve_state(ctx, F1, F2, t)` succeeds with a (position, velocity) state,
`resolve_state(ctx, F2, F1, t)` succeeds with the component-wise negation
of that state, for both the position and the velocity components. -/
theorem resolve_state_antisymmetric (ctx : AniseContext) (F1 F2 : Frame) (t : Epoch)
    (s : State) (h : resolve_state ctx F1 F2 t = .ok s) :
    resolve_state ctx F2 F1 t = .ok (stNeg s) := by
  unfold resolve_state AniseContext.translate_from_to at h ⊢
  by_cases hF : F1 = F2
  · subst hF
    rw [if_pos rfl] at h ⊢
    have hs : s = (v3zero, v3zero) := by
      have := h
      simp only [pure, Except.pure, Except.ok.injEq] at this
      exact this.symm
    subst hs
    have hneg : stNeg (v3zero, v3zero) = (v3zero, v3zero) := by
      simp [stNeg, v3neg, v3zero]
    rw [hneg]
    rfl
  · rw [if_neg hF] at h
    rw [if_neg (Ne.symm hF)]
    cases hp1 : ctx.try_ephemeris_path F1 with
    | error e => rw [hp1] at h; simp [Bind.bind, Except.bind] at h
    | ok r1 =>
      cases hp2 : ctx.try_ephemeris_path F2 with
      | error e =>
        rw [hp1, hp2] at h
        obtain ⟨len1, p1⟩ := r1
        simp [Bind.bind, Except.bind] at h
      | ok r2 =>
        obtain ⟨len1, p1⟩ := r1
        obtain ⟨len2, p2⟩ := r2
        rw [hp1, hp2] at h
        simp only [Bind.bind, Except.bind] at h
        simp only [Bind.bind, Except.bind]
        unfold composeFromPaths at h ⊢
        exact composeChains_antisymm ctx t _ _ s h

/-- The state of Earth relative to Luna in `embCtx` as the composer
assembles it. -/
def sEL : State := stSub (stAdd earthState stZero) (stAdd stZero stZero)

theorem resolve_state_antisymmetric_witness :
    resolve_state embCtx earthFrame lunaFrame 0 = .ok sEL ∧
    resolve_state embCtx lunaFrame earthFrame 0 = .ok (stNeg sEL) :=
  ⟨rfl, resolve_state_antisymmetric embCtx earthFrame lunaFrame 0 sEL rfl⟩
